import Mathlib

/-
Verification of the run-orchestration core of this repository.

The embedding covers the two source modules:
 - `src/prefect/server/models/flow_runs.py` (run lifecycle model layer and
   the `set_flow_run_state` orchestration engine), and
 - `src/prefect/server/api/task_runs.py` (task-run API routes).

Machinery that those modules invoke but that is not part of the given
source (the orchestration-rule protocol of `rules.py`, the policies of
`core_policy.py`/`global_policy.py`, the model-layer `task_runs` module,
and the database's row-lock primitive) is modelled from the spec; each
such definition carries a doc comment saying so.
-/

namespace Prefect

/-- The finite set of lifecycle stage types of a run state
(spec Glossary: Pending, Running, Completed, Failed, Cancelled, Crashed;
plus Scheduled, which the codebase also uses). -/
inductive StateType where
  | scheduled
  | pending
  | running
  | completed
  | failed
  | cancelled
  | crashed
deriving DecidableEq, Repr

/-- An immutable state value: type plus server-assigned timestamp
(timestamps modelled as `Nat` instants). -/
structure StateV where
  type : StateType
  timestamp : Nat
deriving DecidableEq, Repr

/-- `schemas.states.Pending()`: a fresh state value of type Pending stamped
with the given instant. -/
def pendingState (now : Nat) : StateV :=
  { type := StateType.pending, timestamp := now }

/-- The response status enum `SetStateStatus` of an orchestration result. -/
inductive SetStateStatus where
  | accept
  | reject
  | abort
  | wait
deriving DecidableEq, Repr

/-- A stored flow-run row: the columns of `db.FlowRun` that the verified
claims touch.  `created` is the creation timestamp; `state` is the run's
current state value (none when no state has ever been set); `name` stands
for the non-state attributes reachable by `update_flow_run`. -/
structure FlowRunRow where
  id : Nat
  flow_id : Nat
  idempotency_key : Option Nat
  created : Nat
  state : Option StateV
  name : String
  deployment_id : Option Nat := none
  work_queue_id : Option Nat := none
deriving DecidableEq, Repr

/-- The flow-run table, as the ordered list of its rows. -/
abbrev FlowRunTable := List FlowRunRow

/-- `schemas.actions.FlowRunUpdate`: a partial field update.  Only fields
that are set (`exclude_unset=True`) are written; `state` is not an
updatable field of this schema. -/
structure FlowRunUpdate where
  name : Option String
deriving DecidableEq, Repr

/-- Application of a partial update to one row: each set field overwrites,
unset fields leave the row alone. -/
def applyFlowRunUpdate (u : FlowRunUpdate) (r : FlowRunRow) : FlowRunRow :=
  { r with name := u.name.getD r.name }

/-- `update_flow_run` (models/flow_runs.py): issue
`UPDATE flow_run SET ... WHERE id = flow_run_id` and return
`rowcount > 0`.  The updated table is returned together with the flag. -/
def update_flow_run (table : FlowRunTable) (flow_run_id : Nat)
    (flow_run : FlowRunUpdate) : FlowRunTable × Bool :=
  let updated := table.map fun r =>
    if r.id = flow_run_id then applyFlowRunUpdate flow_run r else r
  let rowcount := table.countP fun r => r.id = flow_run_id
  (updated, decide (rowcount > 0))

/-- `delete_flow_run` (models/flow_runs.py): issue
`DELETE FROM flow_run WHERE id = flow_run_id` and return `rowcount > 0`. -/
def delete_flow_run (table : FlowRunTable) (flow_run_id : Nat) :
    FlowRunTable × Bool :=
  let remaining := table.filter fun r => r.id ≠ flow_run_id
  let rowcount := table.countP fun r => r.id = flow_run_id
  (remaining, decide (rowcount > 0))

/-- Observable steps of the `task_run_history` route: opening the database
session and running the bucketing query. -/
inductive HistoryEv where
  | openSession
  | runQuery
deriving DecidableEq, Repr

/-- Outcome of the `task_run_history` route: the trace of storage events it
performed, and either an HTTP error status or the history response
(abstracted to `Unit`; the bucketing itself is out of scope). -/
structure HistoryCall where
  events : List HistoryEv
  result : Except Nat Unit
deriving Repr

/-- `task_run_history` (api/task_runs.py): reject an interval below one
second with HTTP 422 before any session is opened; otherwise open a
session and run the query.  The interval is in microseconds, the
resolution of a Python `timedelta`; one second is 1000000. -/
def task_run_history (history_interval : Int) : HistoryCall :=
  if history_interval < 1000000 then
    { events := [], result := Except.error 422 }
  else
    { events := [HistoryEv.openSession, HistoryEv.runQuery],
      result := Except.ok () }

/-- `read_flow_run` (models/flow_runs.py): `SELECT ... WHERE id = flow_run_id`,
returning the first matching row if any.  The `for_update` row lock is a
storage primitive; its semantics is modelled separately for the
concurrency claim. -/
def read_flow_run (table : FlowRunTable) (flow_run_id : Nat) :
    Option FlowRunRow :=
  table.find? fun r => r.id = flow_run_id

/-- Errors carried by rules and by the orchestration context, as opaque
codes. -/
abbrev Err := Nat

/-- The free-form orchestration parameter mapping injected into a
transition attempt. -/
abbrev Params := List (String × String)

/-- `FlowOrchestrationContext` (rules.py, modelled from the spec): the
mutable working state of one transition attempt — the locked run, the
initial-state snapshot, the proposed state (rules may replace it), the
validated state set by validation, the response status and details, the
terminal orchestration error, and the injected parameters. -/
structure OrchestrationContext where
  run : FlowRunRow
  initial_state : Option StateV
  proposed_state : Option StateV
  validated_state : Option StateV
  response_status : SetStateStatus
  response_details : List String
  orchestration_error : Option Err
  parameters : Params
deriving DecidableEq, Repr

/-- Modelled from the spec: the signalling conventions a rule may use on
the context (`rules.py` is not part of the given source).  A rule may pass
the context through, rewrite the proposed state (a rejection, possibly
substituting a different state or vetoing with none), delay the
transition (WAIT), set the terminal orchestration error (ABORT), or raise
a plain exception out of its setup. -/
inductive RuleAction where
  | pass
  | rewriteProposed (s : Option StateV)
  | delayTransition
  | abortTransition (e : Err)
  | raiseErr (e : Err)
deriving DecidableEq, Repr

/-- Modelled from the spec: applying one rule signal to the context.  The
orchestration error is terminal — once set, later signals no longer
change the attempt — and ABORT is exactly the status that accompanies a
set orchestration error. -/
def applyRuleAction (ctx : OrchestrationContext) (a : RuleAction) :
    Except Err OrchestrationContext :=
  if ctx.orchestration_error.isSome then Except.ok ctx
  else
    match a with
    | RuleAction.pass => Except.ok ctx
    | RuleAction.rewriteProposed s =>
        Except.ok { ctx with
          proposed_state := s,
          response_status := SetStateStatus.reject,
          response_details := ctx.response_details ++ ["rejected"] }
    | RuleAction.delayTransition =>
        Except.ok { ctx with
          proposed_state := none,
          response_status := SetStateStatus.wait,
          response_details := ctx.response_details ++ ["waiting"] }
    | RuleAction.abortTransition e =>
        Except.ok { ctx with
          proposed_state := none,
          response_status := SetStateStatus.abort,
          orchestration_error := some e,
          response_details := ctx.response_details ++ ["aborted"] }
    | RuleAction.raiseErr e => Except.error e

/-- Teardown signals cannot raise in this model; otherwise they apply like
setup signals. -/
def applyExitAction (ctx : OrchestrationContext) (a : RuleAction) :
    OrchestrationContext :=
  match applyRuleAction ctx a with
  | Except.ok ctx' => ctx'
  | Except.error _ => ctx

/-- Modelled from the spec: an orchestration rule declares the
`(from-types, to-types)` pairs it governs (an entry `none` meaning "no
state yet") and behaves as a scoped interceptor with a setup signal and a
teardown signal. -/
structure OrchestrationRule where
  from_states : List (Option StateType)
  to_states : List (Option StateType)
  onEnter : OrchestrationContext → RuleAction
  onExit : OrchestrationContext → RuleAction

/-- Modelled from the spec: a policy is an ordered catalog of rules. -/
structure OrchestrationPolicy where
  priority : List OrchestrationRule

/-- Modelled from the spec: `compile_transition_rules` filters the ordered
catalog to the rules whose declared type pair matches the attempt's exact
`(initial_type, proposed_type)`, preserving declaration order. -/
def compile_transition_rules (policy : OrchestrationPolicy)
    (from_type to_type : Option StateType) : List OrchestrationRule :=
  policy.priority.filter fun rule =>
    rule.from_states.contains from_type && rule.to_states.contains to_type

/-- Modelled from the spec: `validate_proposed_state` runs inside the
innermost scope.  With no orchestration error and a non-null proposed
state it persists the proposed state as the run's new current state and
records it as the validated state; with a null proposed state nothing is
written; with an error set it does nothing. -/
def validate_proposed_state (ctx : OrchestrationContext) :
    OrchestrationContext :=
  if ctx.orchestration_error.isSome then ctx
  else
    match ctx.proposed_state with
    | none => ctx
    | some p =>
        { ctx with
          run := { ctx.run with state := some p },
          validated_state := some p }

/-- Observable events of one `set_flow_run_state` attempt: entering the
scope of rule number `i`, the validation call, unwinding the scope of rule
number `i`, re-raising the orchestration error, and the
notification-policy dispatch. -/
inductive EngineEv where
  | enterScope (i : Nat)
  | validateCall
  | exitScope (i : Nat)
  | raiseOrchestrationError
  | notifyDispatch
deriving DecidableEq, Repr

/-- Result of entering the rule scopes one by one: the events, the scopes
actually entered (in entry order), the context after the last successful
setup, and the exception if some setup raised (that scope is then not
registered, matching `AsyncExitStack.enter_async_context`). -/
structure EnterOutcome where
  events : List EngineEv
  entered : List (Nat × OrchestrationRule)
  ctx : OrchestrationContext
  raised : Option Err

/-- Enter phase of the `AsyncExitStack` block: run each rule's setup in
order, stopping at the first raised exception. -/
def enterPhase : List (Nat × OrchestrationRule) → OrchestrationContext →
    EnterOutcome
  | [], ctx => { events := [], entered := [], ctx := ctx, raised := none }
  | (i, rule) :: rest, ctx =>
      match applyRuleAction ctx (rule.onEnter ctx) with
      | Except.error e =>
          { events := [], entered := [], ctx := ctx, raised := some e }
      | Except.ok ctx' =>
          let o := enterPhase rest ctx'
          { events := EngineEv.enterScope i :: o.events,
            entered := (i, rule) :: o.entered,
            ctx := o.ctx,
            raised := o.raised }

/-- Exit phase of the `AsyncExitStack` block: run the teardown of each
entered scope; the argument list is already in unwind order. -/
def exitPhase : List (Nat × OrchestrationRule) → OrchestrationContext →
    List EngineEv × OrchestrationContext
  | [], ctx => ([], ctx)
  | (i, rule) :: rest, ctx =>
      let ctx' := applyExitAction ctx (rule.onExit ctx)
      let o := exitPhase rest ctx'
      (EngineEv.exitScope i :: o.1, o.2)

/-- Outcome of the `async with AsyncExitStack()` block of
`set_flow_run_state`: its event trace, the final context, and the
exception propagating out of the block if a setup raised. -/
structure AttemptOutcome where
  events : List EngineEv
  ctx : OrchestrationContext
  raised : Option Err

/-- The `async with AsyncExitStack()` block of `set_flow_run_state`: enter
every rule scope in order, call `validate_proposed_state` once all are
entered, and unwind the entered scopes in reverse entry order on every
exit path (also when a setup raised). -/
def runAttempt (rules : List (Nat × OrchestrationRule))
    (ctx0 : OrchestrationContext) : AttemptOutcome :=
  let en := enterPhase rules ctx0
  match en.raised with
  | some e =>
      let ex := exitPhase en.entered.reverse en.ctx
      { events := en.events ++ ex.1, ctx := ex.2, raised := some e }
  | none =>
      let ctx1 := validate_proposed_state en.ctx
      let ex := exitPhase en.entered.reverse ctx1
      { events := en.events ++ [EngineEv.validateCall] ++ ex.1,
        ctx := ex.2,
        raised := none }

/-- Policy substitution step of `set_flow_run_state`
(models/flow_runs.py): if `force` is true or no flow policy was supplied,
the minimal policy replaces the kind-specific tier. -/
def effectiveFlowPolicy (minimalPolicy : OrchestrationPolicy) (force : Bool)
    (flow_policy : Option OrchestrationPolicy) : OrchestrationPolicy :=
  if force || flow_policy.isNone then minimalPolicy
  else flow_policy.getD minimalPolicy

/-- Rule compilation step of `set_flow_run_state`: the kind-specific chain
comes from the effective flow policy, the global chain from the global
policy, both compiled for the same intended transition. -/
def engineCompiledRules (minimalPolicy globalPolicy : OrchestrationPolicy)
    (force : Bool) (flow_policy : Option OrchestrationPolicy)
    (intended_transition : Option StateType × Option StateType) :
    List OrchestrationRule × List OrchestrationRule :=
  (compile_transition_rules
      (effectiveFlowPolicy minimalPolicy force flow_policy)
      intended_transition.1 intended_transition.2,
   compile_transition_rules globalPolicy
      intended_transition.1 intended_transition.2)

/-- Context construction of `set_flow_run_state`: initial state from the
run's current state, proposed state from the input, default ACCEPT status,
parameters overridden when supplied by the caller. -/
def engineContext (run : FlowRunRow) (state : Option StateV)
    (orchestration_parameters : Option Params) : OrchestrationContext :=
  let ctx : OrchestrationContext :=
    { run := run,
      initial_state := run.state,
      proposed_state := state,
      validated_state := none,
      response_status := SetStateStatus.accept,
      response_details := [],
      orchestration_error := none,
      parameters := [] }
  match orchestration_parameters with
  | some ps => { ctx with parameters := ps }
  | none => ctx

/-- The combined rule chain of one attempt, numbered in entry order: the
kind-specific rules first, then the global rules (which are therefore the
innermost scopes). -/
def engineLabeledRules (minimalPolicy globalPolicy : OrchestrationPolicy)
    (force : Bool) (flow_policy : Option OrchestrationPolicy)
    (intended_transition : Option StateType × Option StateType) :
    List (Nat × OrchestrationRule) :=
  let compiled := engineCompiledRules minimalPolicy globalPolicy force
    flow_policy intended_transition
  compiled.1.enum ++ compiled.2.enumFrom compiled.1.length

/-- The intended transition of an attempt:
`(initial_state_type, proposed_state_type)`. -/
def intendedTransition (run : FlowRunRow) (state : Option StateV) :
    Option StateType × Option StateType :=
  (run.state.map StateV.type, state.map StateV.type)

/-- The whole orchestration attempt of `set_flow_run_state` on an already
loaded run: compile the two rule tiers, build the context, and run the
nested-scope block. -/
def engineAttempt (minimalPolicy globalPolicy : OrchestrationPolicy)
    (run : FlowRunRow) (state : Option StateV) (force : Bool)
    (flow_policy : Option OrchestrationPolicy)
    (orchestration_parameters : Option Params) : AttemptOutcome :=
  runAttempt
    (engineLabeledRules minimalPolicy globalPolicy force flow_policy
      (intendedTransition run state))
    (engineContext run state orchestration_parameters)

/-- A structured `OrchestrationResult`: the validated (possibly
substituted) state, the response status, and the response details. -/
structure OrchestrationResult where
  state : Option StateV
  status : SetStateStatus
  details : List String
deriving DecidableEq, Repr

/-- The failure modes of `set_flow_run_state`: unknown run id, a plain
exception raised by a rule's setup (an infrastructure failure), or the
re-raised terminal orchestration error (the ABORT case). -/
inductive EngineErr where
  | notFound
  | ruleException (e : Err)
  | aborted (e : Err)
deriving DecidableEq, Repr

/-- Full outcome of one `set_flow_run_state` call: the event trace, the
flow-run table after commit or rollback, the number of
notification-dispatch calls made, and the returned result or raised
error. -/
structure EngineOutcome where
  events : List EngineEv
  table : FlowRunTable
  notified : Nat
  result : Except EngineErr OrchestrationResult

/-- `set_flow_run_state` (models/flow_runs.py): load the run (NotFound if
absent), run the orchestration attempt, re-raise a rule exception or the
orchestration error (the latter only after the scopes are unwound, with
the transaction rolled back), otherwise build the structured result,
commit the row write, and dispatch notification policies exactly when the
final status is ACCEPT or REJECT. -/
def set_flow_run_state (minimalPolicy globalPolicy : OrchestrationPolicy)
    (table : FlowRunTable) (flow_run_id : Nat) (state : Option StateV)
    (force : Bool) (flow_policy : Option OrchestrationPolicy)
    (orchestration_parameters : Option Params) : EngineOutcome :=
  match read_flow_run table flow_run_id with
  | none =>
      { events := [], table := table, notified := 0,
        result := Except.error EngineErr.notFound }
  | some run =>
      let a := engineAttempt minimalPolicy globalPolicy run state force
        flow_policy orchestration_parameters
      match a.raised with
      | some e =>
          { events := a.events, table := table, notified := 0,
            result := Except.error (EngineErr.ruleException e) }
      | none =>
          match a.ctx.orchestration_error with
          | some e =>
              { events := a.events ++ [EngineEv.raiseOrchestrationError],
                table := table, notified := 0,
                result := Except.error (EngineErr.aborted e) }
          | none =>
              let result : OrchestrationResult :=
                { state := a.ctx.validated_state,
                  status := a.ctx.response_status,
                  details := a.ctx.response_details }
              let committed := table.map fun r =>
                if r.id = flow_run_id then a.ctx.run else r
              if result.status = SetStateStatus.accept ∨
                  result.status = SetStateStatus.reject then
                { events := a.events ++ [EngineEv.notifyDispatch],
                  table := committed, notified := 1,
                  result := Except.ok result }
              else
                { events := a.events, table := committed, notified := 0,
                  result := Except.ok result }

/-- The caller-supplied flow-run model passed to `create_flow_run`. -/
structure FlowRunInput where
  flow_id : Nat
  idempotency_key : Option Nat
  state : Option StateV
  name : String
deriving DecidableEq, Repr

/-- Outcome of `create_flow_run`: the table afterwards, the returned run
row, and whether the attached initial state was applied (that is, whether
the `set_flow_run_state(..., force=True)` call was made). -/
structure CreateOutcome where
  table : FlowRunTable
  run : Option FlowRunRow
  stateApplied : Bool

/-- The owning-scope/idempotency-key match used both by the conditional
insert's uniqueness constraint and by the read-back query of
`create_flow_run`. -/
def matchesScopeKey (flow_id : Nat) (key : Option Nat) (r : FlowRunRow) :
    Bool :=
  decide (r.flow_id = flow_id) && decide (r.idempotency_key = key)

/-- `create_flow_run` (models/flow_runs.py): capture `now`, build the row
dict with `created := now` and the state excluded; with no idempotency key
insert directly, otherwise insert with `on_conflict_do_nothing` on the
`(flow_id, idempotency_key)` uniqueness constraint and read the run back
by that same pair; finally, if the read-back row's creation timestamp
equals the captured `now` and a state was attached, apply it through
`set_flow_run_state` with `force=True`. -/
def create_flow_run (minimalPolicy globalPolicy : OrchestrationPolicy)
    (table : FlowRunTable) (now new_id : Nat) (flow_run : FlowRunInput)
    (orchestration_parameters : Option Params) : CreateOutcome :=
  let flow_run_row : FlowRunRow :=
    { id := new_id, flow_id := flow_run.flow_id,
      idempotency_key := flow_run.idempotency_key, created := now,
      state := none, name := flow_run.name }
  let afterInsert : FlowRunTable × Option FlowRunRow :=
    match flow_run.idempotency_key with
    | none => (table ++ [flow_run_row], some flow_run_row)
    | some _ =>
        let table1 :=
          if table.any
              (matchesScopeKey flow_run.flow_id flow_run.idempotency_key)
          then table
          else table ++ [flow_run_row]
        (table1,
         table1.find?
          (matchesScopeKey flow_run.flow_id flow_run.idempotency_key))
  match afterInsert.2 with
  | none => { table := afterInsert.1, run := none, stateApplied := false }
  | some model =>
      if model.created = now ∧ flow_run.state.isSome then
        { table := (set_flow_run_state minimalPolicy globalPolicy
            afterInsert.1 model.id flow_run.state true none
            orchestration_parameters).table,
          run := some model,
          stateApplied := true }
      else
        { table := afterInsert.1, run := some model, stateApplied := false }

/-- The caller-supplied task-run creation input
(`schemas.actions.TaskRunCreate`, hydrated into a full task-run model by
the route). -/
structure TaskRunInput where
  flow_run_id : Nat
  task_key : Nat
  dynamic_key : Nat
  state : Option StateV
deriving DecidableEq, Repr

/-- A stored task-run row: the columns the verified claims touch. -/
structure TaskRunRow where
  id : Nat
  flow_run_id : Nat
  task_key : Nat
  dynamic_key : Nat
  created : Nat
  state : Option StateV
deriving DecidableEq, Repr

/-- Modelled from the spec: `models.task_runs.create_task_run` is not part
of the given source.  Per spec §4.6, on the fresh-creation path a new row
is created with the captured timestamp and the supplied initial state is
attached to the created run.  This models that path. -/
def model_create_task_run (now new_id : Nat) (task_run : TaskRunInput) :
    TaskRunRow :=
  { id := new_id, flow_run_id := task_run.flow_run_id,
    task_key := task_run.task_key, dynamic_key := task_run.dynamic_key,
    created := now, state := task_run.state }

/-- `create_task_run` (api/task_runs.py): hydrate the input, attach a
fresh Pending state when the input carries none, capture `now`, and create
the run through the model layer. -/
def create_task_run (now new_id : Nat) (task_run : TaskRunInput) :
    TaskRunRow :=
  let task_run :=
    if task_run.state.isNone then
      { task_run with state := some (pendingState now) }
    else task_run
  model_create_task_run now new_id task_run

/-- A flow row, as consulted by the flow-filter EXISTS subquery. -/
structure FlowRow where
  id : Nat
deriving DecidableEq, Repr

/-- A task-run link row, as consulted by the task-run-filter EXISTS
subquery. -/
structure TaskRunLink where
  id : Nat
  flow_run_id : Nat
deriving DecidableEq, Repr

/-- A deployment row, as consulted by the deployment-filter EXISTS
subquery. -/
structure DeploymentRow where
  id : Nat
deriving DecidableEq, Repr

/-- A work-queue row, as consulted by the work-queue and work-pool filter
EXISTS subqueries. -/
structure WorkQueueRow where
  id : Nat
  work_pool_id : Nat
deriving DecidableEq, Repr

/-- A work-pool row, as consulted by the work-pool-filter EXISTS
subquery. -/
structure WorkPoolRow where
  id : Nat
deriving DecidableEq, Repr

/-- The tables consulted by flow-run list/count queries. -/
structure Tables where
  flow_runs : List FlowRunRow
  flows : List FlowRow
  task_runs : List TaskRunLink
  deployments : List DeploymentRow
  work_queues : List WorkQueueRow
  work_pools : List WorkPoolRow

/-- A filter's `as_sql_filter`, abstracted to the predicate it denotes. -/
abbrev FlowFilter := FlowRow → Bool

/-- A flow-run filter as the row predicate it denotes. -/
abbrev FlowRunFilter := FlowRunRow → Bool

/-- A task-run filter as the row predicate it denotes. -/
abbrev TaskRunFilter := TaskRunLink → Bool

/-- A deployment filter as the row predicate it denotes. -/
abbrev DeploymentFilter := DeploymentRow → Bool

/-- A work-pool filter as the row predicate it denotes. -/
abbrev WorkPoolFilter := WorkPoolRow → Bool

/-- A work-queue filter as the row predicate it denotes. -/
abbrev WorkQueueFilter := WorkQueueRow → Bool

/-- `_apply_flow_run_filters` (models/flow_runs.py): conjoin onto the
query each supplied filter — the flow-run filter directly, the deployment,
work-pool and work-queue filters as correlated EXISTS subqueries, and the
flow/task-run filters as one combined EXISTS subquery (joined when both
are supplied). -/
def _apply_flow_run_filters (t : Tables) (flow_filter : Option FlowFilter)
    (flow_run_filter : Option FlowRunFilter)
    (task_run_filter : Option TaskRunFilter)
    (deployment_filter : Option DeploymentFilter)
    (work_pool_filter : Option WorkPoolFilter)
    (work_queue_filter : Option WorkQueueFilter)
    (query : FlowRunRow → Bool) : FlowRunRow → Bool :=
  let query := match flow_run_filter with
    | none => query
    | some f => fun r => query r && f r
  let query := match deployment_filter with
    | none => query
    | some f => fun r => query r &&
        t.deployments.any fun d =>
          decide (some d.id = r.deployment_id) && f d
  let query := match work_pool_filter with
    | none => query
    | some f => fun r => query r &&
        t.work_pools.any fun wp => t.work_queues.any fun wq =>
          decide (some wq.id = r.work_queue_id) &&
          decide (wp.id = wq.work_pool_id) && f wp
  let query := match work_queue_filter with
    | none => query
    | some f => fun r => query r &&
        t.work_queues.any fun wq =>
          decide (some wq.id = r.work_queue_id) && f wq
  let query := match flow_filter, task_run_filter with
    | none, none => query
    | some ff, none => fun r => query r &&
        t.flows.any fun fl => decide (fl.id = r.flow_id) && ff fl
    | none, some tf => fun r => query r &&
        t.task_runs.any fun tr =>
          decide (tr.flow_run_id = r.id) &&
          (decide (r.id = tr.flow_run_id) && tf tr)
    | some ff, some tf => fun r => query r &&
        t.flows.any fun fl => t.task_runs.any fun tr =>
          decide (fl.id = r.flow_id) && ff fl &&
          decide (tr.flow_run_id = r.id) &&
          (decide (r.id = tr.flow_run_id) && tf tr)
  query

/-- `read_flow_runs` (models/flow_runs.py): select from the flow-run
table, order by the sort, apply the shared filter step, then the optional
offset and limit, and deduplicate the resulting rows (`.unique()`). -/
def read_flow_runs (t : Tables) (flow_filter : Option FlowFilter)
    (flow_run_filter : Option FlowRunFilter)
    (task_run_filter : Option TaskRunFilter)
    (deployment_filter : Option DeploymentFilter)
    (work_pool_filter : Option WorkPoolFilter)
    (work_queue_filter : Option WorkQueueFilter)
    (offset limit : Option Nat) (sort : FlowRunRow → FlowRunRow → Bool) :
    List FlowRunRow :=
  let pred := _apply_flow_run_filters t flow_filter flow_run_filter
    task_run_filter deployment_filter work_pool_filter work_queue_filter
    (fun _ => true)
  let result := (t.flow_runs.filter pred).mergeSort sort
  let result := match offset with
    | none => result
    | some n => result.drop n
  let result := match limit with
    | none => result
    | some n => result.take n
  result.dedup

/-- `count_flow_runs` (models/flow_runs.py): `SELECT count(*)` from the
flow-run table with the same shared filter step applied. -/
def count_flow_runs (t : Tables) (flow_filter : Option FlowFilter)
    (flow_run_filter : Option FlowRunFilter)
    (task_run_filter : Option TaskRunFilter)
    (deployment_filter : Option DeploymentFilter)
    (work_pool_filter : Option WorkPoolFilter)
    (work_queue_filter : Option WorkQueueFilter) : Nat :=
  (t.flow_runs.filter
    (_apply_flow_run_filters t flow_filter flow_run_filter task_run_filter
      deployment_filter work_pool_filter work_queue_filter
      (fun _ => true))).length

/-- The scope-discipline trace shape of one attempt: the first `j` scopes
of the chain entered in order, the single validation call exactly when
every scope was entered, then the entered scopes unwound in reverse entry
order. -/
def scopeTrace (labeled : List (Nat × OrchestrationRule)) (j : Nat) :
    List EngineEv :=
  (labeled.take j).map (fun p => EngineEv.enterScope p.1)
  ++ (if j = labeled.length then [EngineEv.validateCall] else [])
  ++ ((labeled.take j).reverse.map fun p => EngineEv.exitScope p.1)

/-- The spec's signalling convention: the ABORT response status is exactly
the status that accompanies a set terminal orchestration error. -/
def statusErrorCoupled (ctx : OrchestrationContext) : Prop :=
  ctx.orchestration_error.isSome ↔
    ctx.response_status = SetStateStatus.abort

/-- The state value a whole `set_flow_run_state` attempt durably writes
when executed on a run whose current state is `initial`: the validated
state when the transaction commits, `none` when nothing is written (the
proposed state was vetoed, a rule aborted, or a rule setup raised and the
transaction rolled back). -/
def attemptWrite (minimalPolicy globalPolicy : OrchestrationPolicy)
    (base : FlowRunRow) (state : Option StateV) (force : Bool)
    (flow_policy : Option OrchestrationPolicy) (params : Option Params)
    (initial : Option StateV) : Option StateV :=
  let a := engineAttempt minimalPolicy globalPolicy
    { base with state := initial } state force flow_policy params
  if a.raised.isNone && a.ctx.orchestration_error.isNone then
    a.ctx.validated_state
  else none

/-- The run's current state after an attempt: the validated state when one
was written, the pre-attempt state otherwise. -/
def postState (pre validated : Option StateV) : Option StateV :=
  match validated with
  | some s => some s
  | none => pre

/-- The per-call arguments of one `set_run_state` call in the two-call
interleaving model. -/
structure CallArgs where
  state : Option StateV
  force : Bool
  flow_policy : Option OrchestrationPolicy
  params : Option Params

/-- The phase of one in-flight `set_run_state` call: not yet started;
holding the row lock with the snapshotted `initial_state`; or finished
with its initial and validated states recorded. -/
inductive CallPhase where
  | idle
  | reading (initial : Option StateV)
  | finished (initial : Option StateV) (validated : Option StateV)
deriving DecidableEq, Repr

/-- Modelled from the spec (§4.5 step 1, §5): the shared run row with its
transactional row lock, and the phases of two concurrent `set_run_state`
calls on the same run id (`false` and `true`). -/
structure TwoCallConfig where
  current : Option StateV
  lock : Option Bool
  phase0 : CallPhase
  phase1 : CallPhase
deriving DecidableEq, Repr

/-- The phase of call `i`. -/
def getPhase (cfg : TwoCallConfig) (i : Bool) : CallPhase :=
  if i then cfg.phase1 else cfg.phase0

/-- Replace the phase of call `i`. -/
def setPhase (cfg : TwoCallConfig) (i : Bool) (p : CallPhase) :
    TwoCallConfig :=
  if i then { cfg with phase1 := p } else { cfg with phase0 := p }

/-- An atomic step of the interleaving: call `i` performs its locked read,
or call `i` finishes its attempt and commits. -/
inductive CallStep where
  | read (i : Bool)
  | finish (i : Bool)
deriving DecidableEq, Repr

/-- Modelled from the spec: the row lock acquired by the `for_update` read
is held for the duration of the attempt.  `read` succeeds only while no
call holds the lock and snapshots the current state as the call's
`initial_state`; `finish` runs the whole orchestration attempt on that
snapshot, commits the validated state (if any) as the run's new current
state, and releases the lock.  An inapplicable step (in particular a read
while the other call holds the lock) blocks: the schedule is invalid. -/
def lockStep (minimalPolicy globalPolicy : OrchestrationPolicy)
    (base : FlowRunRow) (args : Bool → CallArgs) (cfg : TwoCallConfig) :
    CallStep → Option TwoCallConfig
  | CallStep.read i =>
      match cfg.lock, getPhase cfg i with
      | none, CallPhase.idle =>
          some (setPhase { cfg with lock := some i } i
            (CallPhase.reading cfg.current))
      | _, _ => none
  | CallStep.finish i =>
      match getPhase cfg i with
      | CallPhase.reading initial =>
          if cfg.lock = some i then
            some (setPhase
              { cfg with
                current := postState cfg.current
                  (attemptWrite minimalPolicy globalPolicy base
                    (args i).state (args i).force (args i).flow_policy
                    (args i).params initial),
                lock := none }
              i
              (CallPhase.finished initial
                (attemptWrite minimalPolicy globalPolicy base
                  (args i).state (args i).force (args i).flow_policy
                  (args i).params initial)))
          else none
      | _ => none

/-- Run a schedule of steps; `none` when some step was not applicable. -/
def lockExec (minimalPolicy globalPolicy : OrchestrationPolicy)
    (base : FlowRunRow) (args : Bool → CallArgs) :
    List CallStep → TwoCallConfig → Option TwoCallConfig
  | [], cfg => some cfg
  | s :: rest, cfg =>
      match lockStep minimalPolicy globalPolicy base args cfg s with
      | none => none
      | some cfg' => lockExec minimalPolicy globalPolicy base args rest cfg'

/-- The configuration before either call has run. -/
def initConfig (c0 : Option StateV) : TwoCallConfig :=
  { current := c0, lock := none, phase0 := CallPhase.idle,
    phase1 := CallPhase.idle }

/-- Whether a call has finished. -/
def isFinished : CallPhase → Bool
  | CallPhase.finished _ _ => true
  | _ => false

/-- Trivial call arguments, used to instantiate theorems on closed
inputs. -/
def trivialArgs : Bool → CallArgs := fun _ =>
  { state := none, force := false, flow_policy := none, params := none }

/-- A concrete sample row, used to instantiate theorems on closed inputs. -/
def sampleRow : FlowRunRow :=
  { id := 1, flow_id := 7, idempotency_key := none, created := 5,
    state := none, name := "r" }

/-- The empty policy, used to instantiate theorems on closed inputs. -/
def emptyPolicy : OrchestrationPolicy := { priority := [] }

end Prefect

namespace Prefect

/-- C7: a history request with an interval strictly below one second fails
with the InvalidArgument status 422 and performs no work (no session is
opened, no query runs); an interval of at least one second passes the
validation check and proceeds to the query. -/
theorem history_interval_validation (history_interval : Int) :
    (history_interval < 1000000 →
      task_run_history history_interval =
        { events := [], result := Except.error 422 }) ∧
    (1000000 ≤ history_interval →
      task_run_history history_interval =
        { events := [HistoryEv.openSession, HistoryEv.runQuery],
          result := Except.ok () }) := by
  constructor
  · intro h
    simp [task_run_history, h]
  · intro h
    simp [task_run_history, not_lt.mpr h]

/-- Witness for C7 at concrete intervals: 500 milliseconds is rejected with
no events, two seconds passes validation. -/
theorem history_interval_validation_witness :
    task_run_history 500000 =
      { events := [], result := Except.error 422 } ∧
    task_run_history 2000000 =
      { events := [HistoryEv.openSession, HistoryEv.runQuery],
        result := Except.ok () } :=
  ⟨(history_interval_validation 500000).1 (by decide),
   (history_interval_validation 2000000).2 (by decide)⟩

/-- C8: `update_flow_run` and `delete_flow_run` both return `false` (zero
rows affected) for an id matching no row, leaving the table untouched, and
return `true` for an id matching a row. -/
theorem update_delete_missing_id (table : FlowRunTable) (flow_run_id : Nat)
    (u : FlowRunUpdate) :
    ((∀ r ∈ table, r.id ≠ flow_run_id) →
      update_flow_run table flow_run_id u = (table, false) ∧
      delete_flow_run table flow_run_id = (table, false)) ∧
    ((∃ r ∈ table, r.id = flow_run_id) →
      (update_flow_run table flow_run_id u).2 = true ∧
      (delete_flow_run table flow_run_id).2 = true) := by
  constructor
  · intro habsent
    have hcount : (table.countP fun r => r.id = flow_run_id) = 0 := by
      rw [List.countP_eq_zero]
      intro r hr
      simp [habsent r hr]
    have hmap : (table.map fun r =>
        if r.id = flow_run_id then applyFlowRunUpdate u r else r) = table := by
      conv_rhs => rw [← List.map_id table]
      apply List.map_congr_left
      intro r hr
      simp [habsent r hr]
    have hfil : (table.filter fun r => r.id ≠ flow_run_id) = table := by
      apply List.filter_eq_self.mpr
      intro r hr
      simp [habsent r hr]
    constructor
    · simp [update_flow_run, hmap, hcount]
    · simp only [delete_flow_run, hcount]
      rw [hfil]
      simp
  · rintro ⟨r, hr, hid⟩
    have hcount : 0 < table.countP fun r => r.id = flow_run_id := by
      apply List.countP_pos_iff.mpr
      exact ⟨r, hr, by simp [hid]⟩
    constructor
    · simp [update_flow_run, hcount]
    · simp [delete_flow_run, hcount]

/-- Shared helper: the enter phase walks a prefix of the rule list — the
scopes it enters are `rules.take j` for some `j`, entered in order, and it
raises no exception exactly when every rule was entered. -/
theorem enterPhase_take (rules : List (Nat × OrchestrationRule))
    (ctx : OrchestrationContext) :
    ∃ j, j ≤ rules.length ∧
      (enterPhase rules ctx).entered = rules.take j ∧
      (enterPhase rules ctx).events =
        (rules.take j).map (fun p => EngineEv.enterScope p.1) ∧
      ((enterPhase rules ctx).raised = none ↔ j = rules.length) := by
  induction rules generalizing ctx with
  | nil =>
      refine ⟨0, ?_⟩
      simp [enterPhase]
  | cons hd tl ih =>
      obtain ⟨i, rule⟩ := hd
      cases h : applyRuleAction ctx (rule.onEnter ctx) with
      | error e =>
          refine ⟨0, ?_⟩
          simp [enterPhase, h]
      | ok ctx' =>
          obtain ⟨j, hle, hent, hev, hr⟩ := ih ctx'
          refine ⟨j + 1, ?_, ?_, ?_, ?_⟩
          · simpa using hle
          · simp [enterPhase, h, hent]
          · simp [enterPhase, h, hev]
          · simp [enterPhase, h, hr]

/-- Shared helper: the exit phase emits exactly one exit event per scope,
in the order of its argument list. -/
theorem exitPhase_events (rules : List (Nat × OrchestrationRule))
    (ctx : OrchestrationContext) :
    (exitPhase rules ctx).1 = rules.map fun p => EngineEv.exitScope p.1 := by
  induction rules generalizing ctx with
  | nil => rfl
  | cons hd tl ih =>
      obtain ⟨i, rule⟩ := hd
      simp [exitPhase, ih]

/-- Shared helper: the scope block enters a prefix of the rule chain, calls
validation exactly when every scope was entered, and unwinds the entered
scopes in reverse entry order on every exit path. -/
theorem runAttempt_trace (rules : List (Nat × OrchestrationRule))
    (ctx0 : OrchestrationContext) :
    ∃ j, j ≤ rules.length ∧
      (runAttempt rules ctx0).events =
        (rules.take j).map (fun p => EngineEv.enterScope p.1)
        ++ (if j = rules.length then [EngineEv.validateCall] else [])
        ++ ((rules.take j).reverse.map fun p => EngineEv.exitScope p.1) ∧
      ((runAttempt rules ctx0).raised = none ↔ j = rules.length) := by
  obtain ⟨j, hle, hent, hev, hr⟩ := enterPhase_take rules ctx0
  refine ⟨j, hle, ?_, ?_⟩
  · cases hra : (enterPhase rules ctx0).raised with
    | some e =>
        have hj : ¬ j = rules.length := by
          intro hcontra
          have := hr.mpr hcontra
          rw [hra] at this
          exact Option.noConfusion this
        simp [runAttempt, hra, hev, hent, exitPhase_events, hj]
    | none =>
        have hj : j = rules.length := hr.mp hra
        simp [runAttempt, hra, hev, hent, exitPhase_events, hj]
  · cases hra : (enterPhase rules ctx0).raised with
    | some e =>
        have hj : ¬ j = rules.length := by
          intro hcontra
          have := hr.mpr hcontra
          rw [hra] at this
          exact Option.noConfusion this
        simp [runAttempt, hra, hj]
    | none =>
        have hj : j = rules.length := hr.mp hra
        simp [runAttempt, hra, hj]

/-- C4: when `force` is true or no kind-specific policy is supplied, the
kind-specific tier is the minimal policy's compiled chain; the global
policy's chain is compiled for the exact intended transition
unconditionally, whatever the `force` flag and supplied policy are. -/
theorem forced_policy_substitution
    (minimalPolicy globalPolicy : OrchestrationPolicy) (force : Bool)
    (flow_policy : Option OrchestrationPolicy)
    (intended_transition : Option StateType × Option StateType) :
    ((force = true ∨ flow_policy = none) →
      (engineCompiledRules minimalPolicy globalPolicy force flow_policy
          intended_transition).1 =
        compile_transition_rules minimalPolicy intended_transition.1
          intended_transition.2) ∧
    (engineCompiledRules minimalPolicy globalPolicy force flow_policy
        intended_transition).2 =
      compile_transition_rules globalPolicy intended_transition.1
        intended_transition.2 := by
  constructor
  · intro h
    rcases h with h | h
    · simp [engineCompiledRules, effectiveFlowPolicy, h]
    · simp [engineCompiledRules, effectiveFlowPolicy, h]
  · rfl

/-- Witness for C4 with `force = true` and no supplied policy, on empty
policies and a pending-to-running transition. -/
theorem forced_policy_substitution_witness :
    (engineCompiledRules { priority := [] } { priority := [] } true none
        (some StateType.pending, some StateType.running)).1 =
      compile_transition_rules { priority := [] }
        (some StateType.pending) (some StateType.running) :=
  (forced_policy_substitution { priority := [] } { priority := [] } true none
    (some StateType.pending, some StateType.running)).1 (Or.inl rfl)

/-- Witness for C8 on a concrete one-row table: id 2 is absent (both
operations report false and keep the table), id 1 is present (both report
true). -/
theorem update_delete_missing_id_witness :
    (update_flow_run
        [{ id := 1, flow_id := 0, idempotency_key := none, created := 0,
           state := none, name := "a" }] 2 { name := none } =
      ([{ id := 1, flow_id := 0, idempotency_key := none, created := 0,
          state := none, name := "a" }], false)) ∧
    ((update_flow_run
        [{ id := 1, flow_id := 0, idempotency_key := none, created := 0,
           state := none, name := "a" }] 1 { name := none }).2 = true) := by
  constructor
  · exact ((update_delete_missing_id _ 2 _).1 (by decide)).1
  · exact ((update_delete_missing_id
      [{ id := 1, flow_id := 0, idempotency_key := none, created := 0,
         state := none, name := "a" }] 1 { name := none }).2
      ⟨_, List.mem_singleton_self _, rfl⟩).1

/-- Shared helper: one rule signal preserves the error/ABORT coupling. -/
theorem applyRuleAction_coupled {ctx ctx' : OrchestrationContext}
    {a : RuleAction} (h : statusErrorCoupled ctx)
    (happ : applyRuleAction ctx a = Except.ok ctx') :
    statusErrorCoupled ctx' := by
  unfold applyRuleAction at happ
  by_cases he : ctx.orchestration_error.isSome
  · simp only [he, if_pos] at happ
    cases happ
    exact h
  · simp only [he, if_neg, Bool.false_eq_true, not_false_iff, ite_false] at happ
    cases a with
    | pass => cases happ; exact h
    | rewriteProposed s =>
        cases happ
        simp [statusErrorCoupled, he]
    | delayTransition =>
        cases happ
        simp [statusErrorCoupled, he]
    | abortTransition e =>
        cases happ
        simp [statusErrorCoupled]
    | raiseErr e => cases happ

/-- Shared helper: one teardown signal preserves the error/ABORT
coupling. -/
theorem applyExitAction_coupled {ctx : OrchestrationContext}
    {a : RuleAction} (h : statusErrorCoupled ctx) :
    statusErrorCoupled (applyExitAction ctx a) := by
  unfold applyExitAction
  cases happ : applyRuleAction ctx a with
  | ok ctx' => exact applyRuleAction_coupled h happ
  | error e => exact h

/-- Shared helper: validation preserves the error/ABORT coupling. -/
theorem validate_proposed_state_coupled {ctx : OrchestrationContext}
    (h : statusErrorCoupled ctx) :
    statusErrorCoupled (validate_proposed_state ctx) := by
  unfold validate_proposed_state
  by_cases he : ctx.orchestration_error.isSome
  · simpa [he] using h
  · cases hp : ctx.proposed_state with
    | none => simpa [he, hp] using h
    | some p =>
        simp only [he, hp, Bool.false_eq_true, not_false_iff, ite_false]
        simpa [statusErrorCoupled] using h

/-- Shared helper: the enter phase preserves the error/ABORT coupling. -/
theorem enterPhase_coupled (rules : List (Nat × OrchestrationRule))
    (ctx : OrchestrationContext) (h : statusErrorCoupled ctx) :
    statusErrorCoupled (enterPhase rules ctx).ctx := by
  induction rules generalizing ctx with
  | nil => simpa [enterPhase] using h
  | cons hd tl ih =>
      obtain ⟨i, rule⟩ := hd
      cases happ : applyRuleAction ctx (rule.onEnter ctx) with
      | error e => simpa [enterPhase, happ] using h
      | ok ctx' =>
          have h' := applyRuleAction_coupled h happ
          simpa [enterPhase, happ] using ih ctx' h'

/-- Shared helper: the exit phase preserves the error/ABORT coupling. -/
theorem exitPhase_coupled (rules : List (Nat × OrchestrationRule))
    (ctx : OrchestrationContext) (h : statusErrorCoupled ctx) :
    statusErrorCoupled (exitPhase rules ctx).2 := by
  induction rules generalizing ctx with
  | nil => simpa [exitPhase] using h
  | cons hd tl ih =>
      obtain ⟨i, rule⟩ := hd
      simpa [exitPhase] using ih _ (applyExitAction_coupled h)

/-- Shared helper: the whole scope block preserves the error/ABORT
coupling. -/
theorem runAttempt_coupled (rules : List (Nat × OrchestrationRule))
    (ctx0 : OrchestrationContext) (h : statusErrorCoupled ctx0) :
    statusErrorCoupled (runAttempt rules ctx0).ctx := by
  unfold runAttempt
  dsimp only
  cases hra : (enterPhase rules ctx0).raised with
  | some e =>
      exact exitPhase_coupled _ _ (enterPhase_coupled rules ctx0 h)
  | none =>
      exact exitPhase_coupled _ _
        (validate_proposed_state_coupled (enterPhase_coupled rules ctx0 h))

/-- Shared helper: the freshly built context of an attempt satisfies the
error/ABORT coupling (no error, default ACCEPT status). -/
theorem engineContext_coupled (run : FlowRunRow) (state : Option StateV)
    (params : Option Params) :
    statusErrorCoupled (engineContext run state params) := by
  cases params <;> simp [engineContext, statusErrorCoupled]

/-- Shared helper: an attempt's final context satisfies the error/ABORT
coupling. -/
theorem engineAttempt_coupled (minimalPolicy globalPolicy : OrchestrationPolicy)
    (run : FlowRunRow) (state : Option StateV) (force : Bool)
    (flow_policy : Option OrchestrationPolicy) (params : Option Params) :
    statusErrorCoupled
      (engineAttempt minimalPolicy globalPolicy run state force flow_policy
        params).ctx :=
  runAttempt_coupled _ _ (engineContext_coupled run state params)

/-- Shared helper: the scope block emits only enter, validate and exit
events — never a dispatch or an error re-raise. -/
theorem runAttempt_events_scopes (rules : List (Nat × OrchestrationRule))
    (ctx0 : OrchestrationContext) :
    ∀ ev ∈ (runAttempt rules ctx0).events,
      ev ≠ EngineEv.notifyDispatch ∧
      ev ≠ EngineEv.raiseOrchestrationError := by
  obtain ⟨j, hle, hev, hr⟩ := runAttempt_trace rules ctx0
  intro ev hmem
  rw [hev] at hmem
  simp only [List.mem_append] at hmem
  rcases hmem with (hmem | hmem) | hmem
  · obtain ⟨p, _, rfl⟩ := List.mem_map.mp hmem
    exact ⟨fun h => EngineEv.noConfusion h, fun h => EngineEv.noConfusion h⟩
  · by_cases hj : j = rules.length
    · simp only [hj, if_pos, List.mem_singleton] at hmem
      subst hmem
      exact ⟨fun h => EngineEv.noConfusion h, fun h => EngineEv.noConfusion h⟩
    · simp [hj] at hmem
  · obtain ⟨p, _, rfl⟩ := List.mem_map.mp hmem
    exact ⟨fun h => EngineEv.noConfusion h, fun h => EngineEv.noConfusion h⟩

/-- Shared helper: a rule signal never touches the run row itself. -/
theorem applyRuleAction_run {ctx ctx' : OrchestrationContext}
    {a : RuleAction} (happ : applyRuleAction ctx a = Except.ok ctx') :
    ctx'.run = ctx.run := by
  unfold applyRuleAction at happ
  by_cases he : ctx.orchestration_error.isSome
  · rw [if_pos he] at happ
    cases happ
    rfl
  · rw [if_neg he] at happ
    cases a with
    | pass => cases happ; rfl
    | rewriteProposed s => cases happ; rfl
    | delayTransition => cases happ; rfl
    | abortTransition e => cases happ; rfl
    | raiseErr e => exact Except.noConfusion happ

/-- Shared helper: a teardown signal never touches the run row itself. -/
theorem applyExitAction_run (ctx : OrchestrationContext) (a : RuleAction) :
    (applyExitAction ctx a).run = ctx.run := by
  unfold applyExitAction
  cases happ : applyRuleAction ctx a with
  | ok ctx' => exact applyRuleAction_run happ
  | error e => rfl

/-- Shared helper: the enter phase never touches the run row itself. -/
theorem enterPhase_run (rules : List (Nat × OrchestrationRule))
    (ctx : OrchestrationContext) :
    (enterPhase rules ctx).ctx.run = ctx.run := by
  induction rules generalizing ctx with
  | nil => rfl
  | cons hd tl ih =>
      obtain ⟨i, rule⟩ := hd
      cases happ : applyRuleAction ctx (rule.onEnter ctx) with
      | error e => simp [enterPhase, happ]
      | ok ctx' =>
          have := applyRuleAction_run happ
          simp [enterPhase, happ, ih ctx', this]

/-- Shared helper: the exit phase never touches the run row itself. -/
theorem exitPhase_run (rules : List (Nat × OrchestrationRule))
    (ctx : OrchestrationContext) :
    (exitPhase rules ctx).2.run = ctx.run := by
  induction rules generalizing ctx with
  | nil => rfl
  | cons hd tl ih =>
      obtain ⟨i, rule⟩ := hd
      simp [exitPhase, ih, applyExitAction_run]

/-- Shared helper: the whole scope block changes at most the run row's
current state, leaving every other field of the row alone. -/
theorem runAttempt_run (rules : List (Nat × OrchestrationRule))
    (ctx0 : OrchestrationContext) :
    ∃ st, (runAttempt rules ctx0).ctx.run = { ctx0.run with state := st } := by
  cases hra : (enterPhase rules ctx0).raised with
  | some e =>
      refine ⟨ctx0.run.state, ?_⟩
      simp only [runAttempt, hra]
      rw [exitPhase_run, enterPhase_run]
  | none =>
      by_cases he : (enterPhase rules ctx0).ctx.orchestration_error.isSome
      · refine ⟨ctx0.run.state, ?_⟩
        simp only [runAttempt, hra]
        rw [exitPhase_run]
        simp only [validate_proposed_state, he, if_true]
        rw [enterPhase_run]
      · cases hp : (enterPhase rules ctx0).ctx.proposed_state with
        | none =>
            refine ⟨ctx0.run.state, ?_⟩
            simp only [runAttempt, hra]
            rw [exitPhase_run]
            simp only [validate_proposed_state, he, hp, Bool.false_eq_true,
              if_false]
            rw [enterPhase_run]
        | some p =>
            refine ⟨some p, ?_⟩
            simp only [runAttempt, hra]
            rw [exitPhase_run]
            simp only [validate_proposed_state, he, hp, Bool.false_eq_true,
              if_false]
            rw [enterPhase_run]

/-- Shared helper: the attempt's final run row is the read row with at
most its current state replaced. -/
theorem engineAttempt_run (minimalPolicy globalPolicy : OrchestrationPolicy)
    (run : FlowRunRow) (state : Option StateV) (force : Bool)
    (flow_policy : Option OrchestrationPolicy) (params : Option Params) :
    ∃ st, (engineAttempt minimalPolicy globalPolicy run state force
      flow_policy params).ctx.run = { run with state := st } := by
  obtain ⟨st, hst⟩ := runAttempt_run
    (engineLabeledRules minimalPolicy globalPolicy force flow_policy
      (intendedTransition run state))
    (engineContext run state params)
  refine ⟨st, ?_⟩
  have hc : (engineContext run state params).run = run := by
    cases params <;> rfl
  rw [show (engineAttempt minimalPolicy globalPolicy run state force
      flow_policy params).ctx.run =
    (runAttempt
      (engineLabeledRules minimalPolicy globalPolicy force flow_policy
        (intendedTransition run state))
      (engineContext run state params)).ctx.run from rfl]
  rw [hst, hc]

/-- Shared helper: replacing rows by id in a table with no such id is the
identity. -/
theorem map_replace_absent (table : FlowRunTable) (new_id : Nat)
    (nr : FlowRunRow) (hid : ∀ r ∈ table, r.id ≠ new_id) :
    (table.map fun r => if r.id = new_id then nr else r) = table := by
  conv_rhs => rw [← List.map_id table]
  apply List.map_congr_left
  intro r hr
  simp [hid r hr]

/-- Shared helper: `set_flow_run_state` either rolls the table back or
commits exactly one row image — the read row with at most its state
replaced — into every slot matching the run id. -/
theorem set_flow_run_state_table_shape
    (minimalPolicy globalPolicy : OrchestrationPolicy) (table : FlowRunTable)
    (flow_run_id : Nat) (state : Option StateV) (force : Bool)
    (flow_policy : Option OrchestrationPolicy) (params : Option Params)
    (run : FlowRunRow)
    (hrun : read_flow_run table flow_run_id = some run) :
    ∃ st,
      (set_flow_run_state minimalPolicy globalPolicy table flow_run_id state
        force flow_policy params).table = table ∨
      (set_flow_run_state minimalPolicy globalPolicy table flow_run_id state
        force flow_policy params).table =
        table.map fun r =>
          if r.id = flow_run_id then { run with state := st } else r := by
  unfold set_flow_run_state
  rw [hrun]
  simp only []
  cases hra : (engineAttempt minimalPolicy globalPolicy run state force
      flow_policy params).raised with
  | some e => exact ⟨run.state, Or.inl rfl⟩
  | none =>
      cases herr : (engineAttempt minimalPolicy globalPolicy run state force
          flow_policy params).ctx.orchestration_error with
      | some e => exact ⟨run.state, Or.inl rfl⟩
      | none =>
          obtain ⟨st, hst⟩ := engineAttempt_run minimalPolicy globalPolicy
            run state force flow_policy params
          refine ⟨st, Or.inr ?_⟩
          by_cases hs : (engineAttempt minimalPolicy globalPolicy run state
              force flow_policy params).ctx.response_status =
                SetStateStatus.accept ∨
            (engineAttempt minimalPolicy globalPolicy run state force
              flow_policy params).ctx.response_status = SetStateStatus.reject
          · rw [if_pos hs]
            simp only [hst]
          · rw [if_neg hs]
            simp only [hst]

/-- Shared helper: on a table with no row for the owning scope and key and
no row with the fresh id, `create_flow_run` appends exactly one row
carrying the captured creation timestamp, returns it (read back before
any state application), and applies the attached state exactly when one
was supplied. -/
theorem create_flow_run_fresh
    (minimalPolicy globalPolicy : OrchestrationPolicy) (table : FlowRunTable)
    (now new_id : Nat) (flow_run : FlowRunInput) (params : Option Params)
    (k : Nat)
    (hkey : flow_run.idempotency_key = some k)
    (hfresh : ∀ r ∈ table,
      matchesScopeKey flow_run.flow_id flow_run.idempotency_key r = false)
    (hid : ∀ r ∈ table, r.id ≠ new_id) :
    ∃ st,
      create_flow_run minimalPolicy globalPolicy table now new_id flow_run
        params =
      { table := table ++
          [{ id := new_id, flow_id := flow_run.flow_id,
             idempotency_key := flow_run.idempotency_key, created := now,
             state := st, name := flow_run.name }],
        run := some
          { id := new_id, flow_id := flow_run.flow_id,
            idempotency_key := flow_run.idempotency_key, created := now,
            state := none, name := flow_run.name },
        stateApplied := flow_run.state.isSome } := by
  obtain ⟨fid, ikey, fstate, fname⟩ := flow_run
  dsimp only at hkey hfresh ⊢
  subst hkey
  have hany : table.any (matchesScopeKey fid (some k)) = false := by
    rw [List.any_eq_false]
    intro r hr
    simp [hfresh r hr]
  have hnone : table.find? (matchesScopeKey fid (some k)) = none :=
    List.find?_eq_none.mpr fun r hr => by simp [hfresh r hr]
  simp only [create_flow_run]
  simp only [hany, Bool.false_eq_true, if_false]
  rw [List.find?_append, hnone, Option.none_or,
    List.find?_cons_of_pos _ (by simp [matchesScopeKey])]
  simp only []
  cases fstate with
  | none =>
      refine ⟨none, ?_⟩
      rw [if_neg]
      · rfl
      · simp
  | some s =>
      have hread : read_flow_run
          (table ++
            [{ id := new_id, flow_id := fid,
               idempotency_key := some k, created := now,
               state := none, name := fname }]) new_id =
          some { id := new_id, flow_id := fid,
                 idempotency_key := some k, created := now,
                 state := none, name := fname } := by
        unfold read_flow_run
        rw [List.find?_append,
          List.find?_eq_none.mpr fun r hr => by simp [hid r hr],
          Option.none_or, List.find?_cons_of_pos _ (by simp)]
      obtain ⟨st, hshape⟩ := set_flow_run_state_table_shape minimalPolicy
        globalPolicy _ new_id (some s) true none params _ hread
      rw [if_pos (by simp)]
      rcases hshape with hshape | hshape
      · refine ⟨none, ?_⟩
        rw [hshape]
        rfl
      · refine ⟨st, ?_⟩
        rw [hshape]
        rw [List.map_append, map_replace_absent table new_id _ hid]
        simp

/-- Shared helper: on a table already holding a row for the owning scope
and key whose creation timestamp differs from the current instant,
`create_flow_run` is a no-op that returns that row without applying any
state. -/
theorem create_flow_run_existing
    (minimalPolicy globalPolicy : OrchestrationPolicy) (table : FlowRunTable)
    (now new_id : Nat) (flow_run : FlowRunInput) (params : Option Params)
    (k : Nat) (r : FlowRunRow)
    (hkey : flow_run.idempotency_key = some k)
    (hfind : table.find?
      (matchesScopeKey flow_run.flow_id flow_run.idempotency_key) = some r)
    (hcreated : r.created ≠ now) :
    create_flow_run minimalPolicy globalPolicy table now new_id flow_run
      params = { table := table, run := some r, stateApplied := false } := by
  obtain ⟨fid, ikey, fstate, fname⟩ := flow_run
  dsimp only at hkey hfind ⊢
  subst hkey
  have hany : table.any (matchesScopeKey fid (some k)) = true := by
    rw [List.any_eq_true]
    exact ⟨r, List.mem_of_find?_eq_some hfind, List.find?_some hfind⟩
  simp only [create_flow_run]
  simp only [hany, if_true]
  rw [hfind]
  simp only []
  rw [if_neg]
  intro hcon
  exact hcreated hcon.1

/-- C1: under the row lock, two concurrent `set_run_state` calls on the
same run admit only the two serial schedules; the call that reads second
snapshots as its `initial_state` exactly the first call's validated state
when one was written, and the pre-attempt state otherwise (first call
rejected with no substitute, aborted, or failed) — never an interleaved
view. -/
theorem serialized_transitions
    (minimalPolicy globalPolicy : OrchestrationPolicy) (base : FlowRunRow)
    (args : Bool → CallArgs) (c0 : Option StateV) (steps : List CallStep)
    (cfgF : TwoCallConfig)
    (hexec : lockExec minimalPolicy globalPolicy base args steps
      (initConfig c0) = some cfgF)
    (h0 : isFinished cfgF.phase0 = true)
    (h1 : isFinished cfgF.phase1 = true) :
    ∃ i : Bool,
      steps = [CallStep.read i, CallStep.finish i, CallStep.read (!i),
               CallStep.finish (!i)] ∧
      getPhase cfgF i = CallPhase.finished c0
        (attemptWrite minimalPolicy globalPolicy base (args i).state
          (args i).force (args i).flow_policy (args i).params c0) ∧
      getPhase cfgF (!i) = CallPhase.finished
        (postState c0 (attemptWrite minimalPolicy globalPolicy base
          (args i).state (args i).force (args i).flow_policy (args i).params
          c0))
        (attemptWrite minimalPolicy globalPolicy base (args (!i)).state
          (args (!i)).force (args (!i)).flow_policy (args (!i)).params
          (postState c0 (attemptWrite minimalPolicy globalPolicy base
            (args i).state (args i).force (args i).flow_policy
            (args i).params c0))) := by
  cases steps with
  | nil =>
      simp only [lockExec] at hexec
      have := Option.some.inj hexec
      subst this
      simp [initConfig, isFinished] at h0
  | cons s1 r1 =>
      cases s1 with
      | finish i =>
          cases i <;>
            simp [lockExec, lockStep, getPhase, initConfig] at hexec
      | read i =>
          cases i with
          | false =>
              simp only [lockExec, lockStep, getPhase, setPhase,
                initConfig] at hexec
              cases r1 with
              | nil =>
                  simp only [lockExec] at hexec
                  have := Option.some.inj hexec
                  subst this
                  simp [isFinished] at h0
              | cons s2 r2 =>
                  cases s2 with
                  | read j =>
                      cases j <;>
                        simp [lockExec, lockStep, getPhase, setPhase]
                          at hexec
                  | finish j =>
                      cases j with
                      | true =>
                          simp [lockExec, lockStep, getPhase, setPhase]
                            at hexec
                      | false =>
                          simp only [lockExec, lockStep, getPhase, setPhase]
                            at hexec
                          cases r2 with
                          | nil =>
                              simp only [lockExec] at hexec
                              have := Option.some.inj hexec
                              subst this
                              simp [isFinished] at h1
                          | cons s3 r3 =>
                              cases s3 with
                              | finish j =>
                                  cases j <;>
                                    simp [lockExec, lockStep, getPhase,
                                      setPhase] at hexec
                              | read j =>
                                  cases j with
                                  | false =>
                                      simp [lockExec, lockStep, getPhase,
                                        setPhase] at hexec
                                  | true =>
                                      simp only [lockExec, lockStep,
                                        getPhase, setPhase] at hexec
                                      cases r3 with
                                      | nil =>
                                          simp only [lockExec] at hexec
                                          have := Option.some.inj hexec
                                          subst this
                                          simp [isFinished] at h1
                                      | cons s4 r4 =>
                                          cases s4 with
                                          | read j =>
                                              cases j <;>
                                                simp [lockExec, lockStep,
                                                  getPhase, setPhase]
                                                  at hexec
                                          | finish j =>
                                              cases j with
                                              | false =>
                                                  simp [lockExec, lockStep,
                                                    getPhase, setPhase]
                                                    at hexec
                                              | true =>
                                                  simp only [lockExec,
                                                    lockStep, getPhase,
                                                    setPhase] at hexec
                                                  cases r4 with
                                                  | nil =>
                                                      simp only [lockExec] at hexec
                                                      have :=
                                                        Option.some.inj hexec
                                                      subst this
                                                      exact ⟨false, rfl,
                                                        rfl, rfl⟩
                                                  | cons s5 r5 =>
                                                      cases s5 with
                                                      | read j =>
                                                          cases j <;>
                                                            simp [lockExec,
                                                              lockStep,
                                                              getPhase,
                                                              setPhase]
                                                              at hexec
                                                      | finish j =>
                                                          cases j <;>
                                                            simp [lockExec,
                                                              lockStep,
                                                              getPhase,
                                                              setPhase]
                                                              at hexec
          | true =>
              simp only [lockExec, lockStep, getPhase, setPhase,
                initConfig] at hexec
              cases r1 with
              | nil =>
                  simp only [lockExec] at hexec
                  have := Option.some.inj hexec
                  subst this
                  simp [isFinished] at h1
              | cons s2 r2 =>
                  cases s2 with
                  | read j =>
                      cases j <;>
                        simp [lockExec, lockStep, getPhase, setPhase]
                          at hexec
                  | finish j =>
                      cases j with
                      | false =>
                          simp [lockExec, lockStep, getPhase, setPhase]
                            at hexec
                      | true =>
                          simp only [lockExec, lockStep, getPhase, setPhase]
                            at hexec
                          cases r2 with
                          | nil =>
                              simp only [lockExec] at hexec
                              have := Option.some.inj hexec
                              subst this
                              simp [isFinished] at h0
                          | cons s3 r3 =>
                              cases s3 with
                              | finish j =>
                                  cases j <;>
                                    simp [lockExec, lockStep, getPhase,
                                      setPhase] at hexec
                              | read j =>
                                  cases j with
                                  | true =>
                                      simp [lockExec, lockStep, getPhase,
                                        setPhase] at hexec
                                  | false =>
                                      simp only [lockExec, lockStep,
                                        getPhase, setPhase] at hexec
                                      cases r3 with
                                      | nil =>
                                          simp only [lockExec] at hexec
                                          have := Option.some.inj hexec
                                          subst this
                                          simp [isFinished] at h0
                                      | cons s4 r4 =>
                                          cases s4 with
                                          | read j =>
                                              cases j <;>
                                                simp [lockExec, lockStep,
                                                  getPhase, setPhase]
                                                  at hexec
                                          | finish j =>
                                              cases j with
                                              | true =>
                                                  simp [lockExec, lockStep,
                                                    getPhase, setPhase]
                                                    at hexec
                                              | false =>
                                                  simp only [lockExec,
                                                    lockStep, getPhase,
                                                    setPhase] at hexec
                                                  cases r4 with
                                                  | nil =>
                                                      simp only [lockExec] at hexec
                                                      have :=
                                                        Option.some.inj hexec
                                                      subst this
                                                      exact ⟨true, rfl,
                                                        rfl, rfl⟩
                                                  | cons s5 r5 =>
                                                      cases s5 with
                                                      | read j =>
                                                          cases j <;>
                                                            simp [lockExec,
                                                              lockStep,
                                                              getPhase,
                                                              setPhase]
                                                              at hexec
                                                      | finish j =>
                                                          cases j <;>
                                                            simp [lockExec,
                                                              lockStep,
                                                              getPhase,
                                                              setPhase]
                                                              at hexec

/-- Witness for C1: both calls with empty policies and no proposed state,
on the serial schedule reading call `false` first. -/
theorem serialized_transitions_witness :
    ∃ i : Bool,
      ([CallStep.read false, CallStep.finish false, CallStep.read true,
        CallStep.finish true] =
        [CallStep.read i, CallStep.finish i, CallStep.read (!i),
         CallStep.finish (!i)]) ∧
      getPhase
        { current := none, lock := none,
          phase0 := CallPhase.finished none none,
          phase1 := CallPhase.finished none none } i =
        CallPhase.finished none
          (attemptWrite emptyPolicy emptyPolicy sampleRow
            (trivialArgs i).state (trivialArgs i).force
            (trivialArgs i).flow_policy (trivialArgs i).params none) ∧
      getPhase
        { current := none, lock := none,
          phase0 := CallPhase.finished none none,
          phase1 := CallPhase.finished none none } (!i) =
        CallPhase.finished
          (postState none (attemptWrite emptyPolicy emptyPolicy sampleRow
            (trivialArgs i).state (trivialArgs i).force
            (trivialArgs i).flow_policy (trivialArgs i).params none))
          (attemptWrite emptyPolicy emptyPolicy sampleRow
            (trivialArgs (!i)).state (trivialArgs (!i)).force
            (trivialArgs (!i)).flow_policy (trivialArgs (!i)).params
            (postState none (attemptWrite emptyPolicy emptyPolicy sampleRow
              (trivialArgs i).state (trivialArgs i).force
              (trivialArgs i).flow_policy (trivialArgs i).params none))) :=
  serialized_transitions emptyPolicy emptyPolicy sampleRow trivialArgs
    none
    [CallStep.read false, CallStep.finish false, CallStep.read true,
     CallStep.finish true]
    { current := none, lock := none,
      phase0 := CallPhase.finished none none,
      phase1 := CallPhase.finished none none }
    (by rfl) (by rfl) (by rfl)

/-- C9: a `create_task_run` call whose input carries no state attaches a
Pending state stamped with the captured instant before creation proceeds,
so the created run's current state is that Pending state — never null. -/
theorem create_task_run_pending (now new_id : Nat)
    (task_run : TaskRunInput) (h : task_run.state = none) :
    (create_task_run now new_id task_run).state =
      some (pendingState now) ∧
    ((create_task_run now new_id task_run).state).isSome = true := by
  obtain ⟨frid, tk, dk, st⟩ := task_run
  dsimp only at h
  subst h
  simp [create_task_run, model_create_task_run]

/-- Witness for C9 on a concrete stateless input at instant 4. -/
theorem create_task_run_pending_witness :
    (create_task_run 4 9
      { flow_run_id := 1, task_key := 2, dynamic_key := 3,
        state := none }).state = some (pendingState 4) ∧
    ((create_task_run 4 9
      { flow_run_id := 1, task_key := 2, dynamic_key := 3,
        state := none }).state).isSome = true :=
  create_task_run_pending 4 9
    { flow_run_id := 1, task_key := 2, dynamic_key := 3, state := none } rfl

/-- C10: for every combination of filters, `count_flow_runs` returns
exactly the number of rows `read_flow_runs` returns for the same filters
with no offset and no limit: both compose the same predicate through the
shared `_apply_flow_run_filters` step, and sorting and deduplication of a
duplicate-free table preserve the row count. -/
theorem count_matches_read (t : Tables) (flow_filter : Option FlowFilter)
    (flow_run_filter : Option FlowRunFilter)
    (task_run_filter : Option TaskRunFilter)
    (deployment_filter : Option DeploymentFilter)
    (work_pool_filter : Option WorkPoolFilter)
    (work_queue_filter : Option WorkQueueFilter)
    (sort : FlowRunRow → FlowRunRow → Bool)
    (hnodup : t.flow_runs.Nodup) :
    count_flow_runs t flow_filter flow_run_filter task_run_filter
      deployment_filter work_pool_filter work_queue_filter =
    (read_flow_runs t flow_filter flow_run_filter task_run_filter
      deployment_filter work_pool_filter work_queue_filter none none
      sort).length := by
  unfold read_flow_runs count_flow_runs
  dsimp only
  have hperm := List.mergeSort_perm
    (t.flow_runs.filter
      (_apply_flow_run_filters t flow_filter flow_run_filter
        task_run_filter deployment_filter work_pool_filter
        work_queue_filter (fun _ => true))) sort
  have hnd := hperm.nodup_iff.mpr (List.Nodup.filter _ hnodup)
  rw [List.dedup_eq_self.mpr hnd]
  exact hperm.length_eq.symm

/-- Witness for C10 on a concrete two-row table (duplicate free) with a
flow-run filter selecting one row and no other filters. -/
theorem count_matches_read_witness :
    count_flow_runs
      { flow_runs := [sampleRow,
          { id := 2, flow_id := 7, idempotency_key := none, created := 6,
            state := none, name := "s" }],
        flows := [], task_runs := [], deployments := [], work_queues := [],
        work_pools := [] }
      none (some fun r => decide (r.id = 2)) none none none none =
    (read_flow_runs
      { flow_runs := [sampleRow,
          { id := 2, flow_id := 7, idempotency_key := none, created := 6,
            state := none, name := "s" }],
        flows := [], task_runs := [], deployments := [], work_queues := [],
        work_pools := [] }
      none (some fun r => decide (r.id = 2)) none none none none none none
      (fun a b => decide (a.id ≤ b.id))).length :=
  count_matches_read
    { flow_runs := [sampleRow,
        { id := 2, flow_id := 7, idempotency_key := none, created := 6,
          state := none, name := "s" }],
      flows := [], task_runs := [], deployments := [], work_queues := [],
      work_pools := [] }
    none (some fun r => decide (r.id = 2)) none none none none
    (fun a b => decide (a.id ≤ b.id)) (by decide)

/-- C2: two `create_flow_run` calls with the same owning scope and
idempotency key (the table fresh for that pair at the first call, the
instants of the two calls distinct) return the same run id, the attached
initial state is applied exactly once — by the first call iff a state was
supplied, never by the second — and the second call's conditional insert
and read-back leave the table untouched. -/
theorem idempotent_create
    (minimalPolicy globalPolicy : OrchestrationPolicy) (table : FlowRunTable)
    (now₁ now₂ new_id₁ new_id₂ : Nat) (flow_run : FlowRunInput)
    (params₁ params₂ : Option Params) (k : Nat) (o₁ o₂ : CreateOutcome)
    (hkey : flow_run.idempotency_key = some k)
    (hfresh : ∀ r ∈ table,
      matchesScopeKey flow_run.flow_id flow_run.idempotency_key r = false)
    (hid : ∀ r ∈ table, r.id ≠ new_id₁)
    (hnow : now₂ ≠ now₁)
    (ho₁ : o₁ = create_flow_run minimalPolicy globalPolicy table now₁
      new_id₁ flow_run params₁)
    (ho₂ : o₂ = create_flow_run minimalPolicy globalPolicy o₁.table now₂
      new_id₂ flow_run params₂) :
    ∃ r₁ r₂, o₁.run = some r₁ ∧ o₂.run = some r₂ ∧
      r₁.id = new_id₁ ∧ r₂.id = r₁.id ∧
      o₁.stateApplied = flow_run.state.isSome ∧
      o₂.stateApplied = false ∧
      o₂.table = o₁.table := by
  obtain ⟨st, h₁⟩ := create_flow_run_fresh minimalPolicy globalPolicy table
    now₁ new_id₁ flow_run params₁ k hkey hfresh hid
  rw [h₁] at ho₁
  have hfind₂ : o₁.table.find?
      (matchesScopeKey flow_run.flow_id flow_run.idempotency_key) =
      some { id := new_id₁, flow_id := flow_run.flow_id,
             idempotency_key := flow_run.idempotency_key, created := now₁,
             state := st, name := flow_run.name } := by
    rw [ho₁]
    dsimp only
    rw [List.find?_append,
      List.find?_eq_none.mpr fun r hr => by simp [hfresh r hr],
      Option.none_or,
      List.find?_cons_of_pos _ (by simp [matchesScopeKey])]
  have h₂ := create_flow_run_existing minimalPolicy globalPolicy o₁.table
    now₂ new_id₂ flow_run params₂ k _ hkey hfind₂ (by simpa using hnow.symm)
  rw [h₂] at ho₂
  refine ⟨_, _, by rw [ho₁], by rw [ho₂], ?_, ?_, by rw [ho₁], by rw [ho₂],
    by rw [ho₂, ho₁]⟩
  · rfl
  · rfl

/-- Witness for C2: an empty table, key 3, a supplied running state,
distinct instants 10 and 11. -/
theorem idempotent_create_witness :
    ∃ r₁ r₂,
      (create_flow_run emptyPolicy emptyPolicy [] 10 5
        { flow_id := 7, idempotency_key := some 3,
          state := some { type := StateType.running, timestamp := 2 },
          name := "w" } none).run = some r₁ ∧
      (create_flow_run emptyPolicy emptyPolicy
        (create_flow_run emptyPolicy emptyPolicy [] 10 5
          { flow_id := 7, idempotency_key := some 3,
            state := some { type := StateType.running, timestamp := 2 },
            name := "w" } none).table 11 6
        { flow_id := 7, idempotency_key := some 3,
          state := some { type := StateType.running, timestamp := 2 },
          name := "w" } none).run = some r₂ ∧
      r₁.id = 5 ∧ r₂.id = r₁.id ∧
      (create_flow_run emptyPolicy emptyPolicy [] 10 5
        { flow_id := 7, idempotency_key := some 3,
          state := some { type := StateType.running, timestamp := 2 },
          name := "w" } none).stateApplied =
        (Option.some { type := StateType.running, timestamp := 2 :
          StateV }).isSome ∧
      (create_flow_run emptyPolicy emptyPolicy
        (create_flow_run emptyPolicy emptyPolicy [] 10 5
          { flow_id := 7, idempotency_key := some 3,
            state := some { type := StateType.running, timestamp := 2 },
            name := "w" } none).table 11 6
        { flow_id := 7, idempotency_key := some 3,
          state := some { type := StateType.running, timestamp := 2 },
          name := "w" } none).stateApplied = false ∧
      (create_flow_run emptyPolicy emptyPolicy
        (create_flow_run emptyPolicy emptyPolicy [] 10 5
          { flow_id := 7, idempotency_key := some 3,
            state := some { type := StateType.running, timestamp := 2 },
            name := "w" } none).table 11 6
        { flow_id := 7, idempotency_key := some 3,
          state := some { type := StateType.running, timestamp := 2 },
          name := "w" } none).table =
      (create_flow_run emptyPolicy emptyPolicy [] 10 5
        { flow_id := 7, idempotency_key := some 3,
          state := some { type := StateType.running, timestamp := 2 },
          name := "w" } none).table :=
  idempotent_create emptyPolicy emptyPolicy [] 10 11 5 6
    { flow_id := 7, idempotency_key := some 3,
      state := some { type := StateType.running, timestamp := 2 },
      name := "w" } none none 3 _ _ rfl (by simp) (by simp) (by decide)
    rfl rfl

/-- C5: every `set_flow_run_state` attempt wires the scope chain as the
kind-specific rules followed by the global rules (the final conjunct: the
global rules are numbered after, hence nest inside, the kind-specific
rules), enters a prefix of that chain in order, calls
`validate_proposed_state` exactly when every scope was entered, and
unwinds the entered scopes in reverse entry order on every exit path; only
the error re-raise or the notification dispatch may follow that trace. -/
theorem nested_scope_discipline
    (minimalPolicy globalPolicy : OrchestrationPolicy) (table : FlowRunTable)
    (flow_run_id : Nat) (state : Option StateV) (force : Bool)
    (flow_policy : Option OrchestrationPolicy) (params : Option Params)
    (run : FlowRunRow)
    (hrun : read_flow_run table flow_run_id = some run) :
    ∃ j tail,
      j ≤ (engineLabeledRules minimalPolicy globalPolicy force flow_policy
            (intendedTransition run state)).length ∧
      (set_flow_run_state minimalPolicy globalPolicy table flow_run_id state
          force flow_policy params).events =
        scopeTrace (engineLabeledRules minimalPolicy globalPolicy force
          flow_policy (intendedTransition run state)) j ++ tail ∧
      (∀ ev ∈ tail, ev = EngineEv.raiseOrchestrationError ∨
        ev = EngineEv.notifyDispatch) ∧
      engineLabeledRules minimalPolicy globalPolicy force flow_policy
          (intendedTransition run state) =
        (engineCompiledRules minimalPolicy globalPolicy force flow_policy
            (intendedTransition run state)).1.enum
        ++ (engineCompiledRules minimalPolicy globalPolicy force flow_policy
              (intendedTransition run state)).2.enumFrom
             (engineCompiledRules minimalPolicy globalPolicy force flow_policy
                (intendedTransition run state)).1.length := by
  obtain ⟨j, hle, hev, hr⟩ := runAttempt_trace
    (engineLabeledRules minimalPolicy globalPolicy force flow_policy
      (intendedTransition run state))
    (engineContext run state params)
  have hatt : engineAttempt minimalPolicy globalPolicy run state force
      flow_policy params =
    runAttempt
      (engineLabeledRules minimalPolicy globalPolicy force flow_policy
        (intendedTransition run state))
      (engineContext run state params) := rfl
  unfold set_flow_run_state
  rw [hrun]
  cases hra : (engineAttempt minimalPolicy globalPolicy run state force
      flow_policy params).raised with
  | some e =>
      refine ⟨j, [], hle, ?_, by simp, rfl⟩
      simp only [hatt] at hra
      simp only [hatt, hra]
      simpa [scopeTrace] using hev
  | none =>
      cases herr : (engineAttempt minimalPolicy globalPolicy run state force
          flow_policy params).ctx.orchestration_error with
      | some e =>
          refine ⟨j, [EngineEv.raiseOrchestrationError], hle, ?_, by simp, rfl⟩
          simp only [hatt] at hra herr
          simp only [hatt, hra, herr]
          simp [scopeTrace, hev]
      | none =>
          by_cases hs : (engineAttempt minimalPolicy globalPolicy run state
              force flow_policy params).ctx.response_status =
                SetStateStatus.accept ∨
            (engineAttempt minimalPolicy globalPolicy run state force
              flow_policy params).ctx.response_status = SetStateStatus.reject
          · refine ⟨j, [EngineEv.notifyDispatch], hle, ?_, by simp, rfl⟩
            simp only [hatt] at hra herr hs
            simp only [hatt, hra, herr]
            simp [scopeTrace, hev, hs]
          · refine ⟨j, [], hle, ?_, by simp, rfl⟩
            simp only [hatt] at hra herr hs
            simp only [hatt, hra, herr]
            simp [scopeTrace, hev, hs]

/-- Witness for C5 on a one-row table with empty policies and no proposed
state. -/
theorem nested_scope_discipline_witness :
    ∃ j tail,
      j ≤ (engineLabeledRules emptyPolicy emptyPolicy false none
            (intendedTransition sampleRow none)).length ∧
      (set_flow_run_state emptyPolicy emptyPolicy [sampleRow] 1 none false
          none none).events =
        scopeTrace (engineLabeledRules emptyPolicy emptyPolicy false none
          (intendedTransition sampleRow none)) j ++ tail ∧
      (∀ ev ∈ tail, ev = EngineEv.raiseOrchestrationError ∨
        ev = EngineEv.notifyDispatch) ∧
      engineLabeledRules emptyPolicy emptyPolicy false none
          (intendedTransition sampleRow none) =
        (engineCompiledRules emptyPolicy emptyPolicy false none
            (intendedTransition sampleRow none)).1.enum
        ++ (engineCompiledRules emptyPolicy emptyPolicy false none
              (intendedTransition sampleRow none)).2.enumFrom
             (engineCompiledRules emptyPolicy emptyPolicy false none
                (intendedTransition sampleRow none)).1.length :=
  nested_scope_discipline emptyPolicy emptyPolicy [sampleRow] 1 none false
    none none sampleRow (by rfl)

/-- C3: notification-policy dispatch happens exactly when the final result
is a returned ACCEPT or REJECT — never on WAIT, never on a returned ABORT
status (none is ever returned: a set orchestration error is raised first),
never on a raised error — and at most one dispatch call is made per
attempt (the trace counts exactly `notified` dispatch events). -/
theorem notification_dispatch_discipline
    (minimalPolicy globalPolicy : OrchestrationPolicy) (table : FlowRunTable)
    (flow_run_id : Nat) (state : Option StateV) (force : Bool)
    (flow_policy : Option OrchestrationPolicy) (params : Option Params)
    (o : EngineOutcome)
    (ho : o = set_flow_run_state minimalPolicy globalPolicy table flow_run_id
      state force flow_policy params) :
    (o.notified = 1 ↔ ∃ r, o.result = Except.ok r ∧
        (r.status = SetStateStatus.accept ∨
         r.status = SetStateStatus.reject)) ∧
    o.notified ≤ 1 ∧
    o.events.count EngineEv.notifyDispatch = o.notified ∧
    (∀ r, o.result = Except.ok r → r.status ≠ SetStateStatus.abort) ∧
    (∀ r, o.result = Except.ok r → r.status = SetStateStatus.wait →
      o.notified = 0) ∧
    (∀ e, o.result = Except.error e → o.notified = 0) := by
  subst ho
  unfold set_flow_run_state
  cases hread : read_flow_run table flow_run_id with
  | none => simp
  | some run =>
      dsimp only
      have hnotify : (engineAttempt minimalPolicy globalPolicy run state
          force flow_policy params).events.count EngineEv.notifyDispatch
          = 0 := by
        apply List.count_eq_zero.mpr
        intro hmem
        exact (runAttempt_events_scopes _ _ _ hmem).1 rfl
      cases hra : (engineAttempt minimalPolicy globalPolicy run state force
          flow_policy params).raised with
      | some e => simp [hnotify]
      | none =>
          cases herr : (engineAttempt minimalPolicy globalPolicy run state
              force flow_policy params).ctx.orchestration_error with
          | some e => simp [List.count_append, hnotify]
          | none =>
              have hcoupled := engineAttempt_coupled minimalPolicy
                globalPolicy run state force flow_policy params
              have habort : (engineAttempt minimalPolicy globalPolicy run
                  state force flow_policy params).ctx.response_status ≠
                  SetStateStatus.abort := by
                intro hab
                have := hcoupled.mpr hab
                rw [herr] at this
                simp at this
              by_cases hs : (engineAttempt minimalPolicy globalPolicy run
                  state force flow_policy params).ctx.response_status =
                    SetStateStatus.accept ∨
                (engineAttempt minimalPolicy globalPolicy run state force
                  flow_policy params).ctx.response_status =
                    SetStateStatus.reject
              · rw [if_pos hs]
                refine ⟨?_, by simp, ?_, ?_, ?_, by simp⟩
                · simp only [true_iff]
                  exact ⟨_, rfl, hs⟩
                · simp [List.count_append, hnotify]
                · intro r hr
                  cases hr
                  exact habort
                · intro r hr hw
                  cases hr
                  dsimp only at hw
                  rw [hw] at hs
                  rcases hs with hs | hs <;> simp at hs
              · rw [if_neg hs]
                refine ⟨?_, by simp, by simp [hnotify], ?_, ?_, by simp⟩
                · constructor
                  · intro h01
                    simp at h01
                  · rintro ⟨r, hr, hsr⟩
                    cases hr
                    exact absurd hsr hs
                · intro r hr
                  cases hr
                  exact habort
                · intro r hr hw
                  rfl

/-- Witness for C3 on a one-row table with empty policies. -/
theorem notification_dispatch_discipline_witness :
    (((set_flow_run_state emptyPolicy emptyPolicy [sampleRow] 1 none false
        none none).notified = 1 ↔
      ∃ r, (set_flow_run_state emptyPolicy emptyPolicy [sampleRow] 1 none
          false none none).result = Except.ok r ∧
        (r.status = SetStateStatus.accept ∨
         r.status = SetStateStatus.reject)) ∧
    (set_flow_run_state emptyPolicy emptyPolicy [sampleRow] 1 none false
      none none).notified ≤ 1 ∧
    (set_flow_run_state emptyPolicy emptyPolicy [sampleRow] 1 none false
      none none).events.count EngineEv.notifyDispatch =
      (set_flow_run_state emptyPolicy emptyPolicy [sampleRow] 1 none false
        none none).notified ∧
    (∀ r, (set_flow_run_state emptyPolicy emptyPolicy [sampleRow] 1 none
        false none none).result = Except.ok r →
      r.status ≠ SetStateStatus.abort) ∧
    (∀ r, (set_flow_run_state emptyPolicy emptyPolicy [sampleRow] 1 none
        false none none).result = Except.ok r →
      r.status = SetStateStatus.wait →
      (set_flow_run_state emptyPolicy emptyPolicy [sampleRow] 1 none false
        none none).notified = 0) ∧
    (∀ e, (set_flow_run_state emptyPolicy emptyPolicy [sampleRow] 1 none
        false none none).result = Except.error e →
      (set_flow_run_state emptyPolicy emptyPolicy [sampleRow] 1 none false
        none none).notified = 0)) :=
  notification_dispatch_discipline emptyPolicy emptyPolicy [sampleRow] 1
    none false none none _ rfl

/-- C6: when no rule setup raised a plain exception, `set_flow_run_state`
returns the structured `OrchestrationResult` (validated state, response
status — one of ACCEPT, REJECT, WAIT — and details) exactly when no rule
set the orchestration error, and raises exactly the set orchestration
error otherwise; the re-raise event comes only after the complete scope
trace, whose exit events unwind every entered scope. -/
theorem structured_result_or_abort
    (minimalPolicy globalPolicy : OrchestrationPolicy) (table : FlowRunTable)
    (flow_run_id : Nat) (state : Option StateV) (force : Bool)
    (flow_policy : Option OrchestrationPolicy) (params : Option Params)
    (run : FlowRunRow) (o : EngineOutcome)
    (hrun : read_flow_run table flow_run_id = some run)
    (ho : o = set_flow_run_state minimalPolicy globalPolicy table flow_run_id
      state force flow_policy params)
    (hnoraise : (engineAttempt minimalPolicy globalPolicy run state force
      flow_policy params).raised = none) :
    ((engineAttempt minimalPolicy globalPolicy run state force flow_policy
        params).ctx.orchestration_error = none →
      o.result = Except.ok
        { state := (engineAttempt minimalPolicy globalPolicy run state force
            flow_policy params).ctx.validated_state,
          status := (engineAttempt minimalPolicy globalPolicy run state force
            flow_policy params).ctx.response_status,
          details := (engineAttempt minimalPolicy globalPolicy run state
            force flow_policy params).ctx.response_details } ∧
      ((engineAttempt minimalPolicy globalPolicy run state force flow_policy
          params).ctx.response_status = SetStateStatus.accept ∨
       (engineAttempt minimalPolicy globalPolicy run state force flow_policy
          params).ctx.response_status = SetStateStatus.reject ∨
       (engineAttempt minimalPolicy globalPolicy run state force flow_policy
          params).ctx.response_status = SetStateStatus.wait)) ∧
    (∀ e, (engineAttempt minimalPolicy globalPolicy run state force
        flow_policy params).ctx.orchestration_error = some e →
      o.result = Except.error (EngineErr.aborted e) ∧
      o.events =
        scopeTrace
          (engineLabeledRules minimalPolicy globalPolicy force flow_policy
            (intendedTransition run state))
          (engineLabeledRules minimalPolicy globalPolicy force flow_policy
            (intendedTransition run state)).length
        ++ [EngineEv.raiseOrchestrationError]) := by
  subst ho
  unfold set_flow_run_state
  rw [hrun]
  dsimp only
  rw [hnoraise]
  have hcoupled := engineAttempt_coupled minimalPolicy globalPolicy run
    state force flow_policy params
  obtain ⟨j, hle, hev, hr⟩ := runAttempt_trace
    (engineLabeledRules minimalPolicy globalPolicy force flow_policy
      (intendedTransition run state))
    (engineContext run state params)
  have hj : j = (engineLabeledRules minimalPolicy globalPolicy force
      flow_policy (intendedTransition run state)).length := hr.mp hnoraise
  subst hj
  constructor
  · intro herr
    rw [herr]
    have habort : (engineAttempt minimalPolicy globalPolicy run state force
        flow_policy params).ctx.response_status ≠ SetStateStatus.abort := by
      intro hab
      have := hcoupled.mpr hab
      rw [herr] at this
      simp at this
    constructor
    · by_cases hs : (engineAttempt minimalPolicy globalPolicy run state
          force flow_policy params).ctx.response_status =
            SetStateStatus.accept ∨
        (engineAttempt minimalPolicy globalPolicy run state force
          flow_policy params).ctx.response_status = SetStateStatus.reject
      · rw [if_pos hs]
      · rw [if_neg hs]
    · cases hstat : (engineAttempt minimalPolicy globalPolicy run state
          force flow_policy params).ctx.response_status with
      | accept => exact Or.inl rfl
      | reject => exact Or.inr (Or.inl rfl)
      | wait => exact Or.inr (Or.inr rfl)
      | abort => exact absurd hstat habort
  · intro e herr
    rw [herr]
    refine ⟨rfl, ?_⟩
    dsimp only
    have hatt : engineAttempt minimalPolicy globalPolicy run state force
        flow_policy params =
      runAttempt
        (engineLabeledRules minimalPolicy globalPolicy force flow_policy
          (intendedTransition run state))
        (engineContext run state params) := rfl
    rw [hatt, hev]
    simp [scopeTrace]

/-- Witness for C6 on a one-row table with empty policies: no rule raises,
no orchestration error is set, and the structured result is returned. -/
theorem structured_result_or_abort_witness :
    (((engineAttempt emptyPolicy emptyPolicy sampleRow none false none
        none).ctx.orchestration_error = none →
      (set_flow_run_state emptyPolicy emptyPolicy [sampleRow] 1 none false
          none none).result = Except.ok
        { state := (engineAttempt emptyPolicy emptyPolicy sampleRow none
            false none none).ctx.validated_state,
          status := (engineAttempt emptyPolicy emptyPolicy sampleRow none
            false none none).ctx.response_status,
          details := (engineAttempt emptyPolicy emptyPolicy sampleRow none
            false none none).ctx.response_details } ∧
      ((engineAttempt emptyPolicy emptyPolicy sampleRow none false none
          none).ctx.response_status = SetStateStatus.accept ∨
       (engineAttempt emptyPolicy emptyPolicy sampleRow none false none
          none).ctx.response_status = SetStateStatus.reject ∨
       (engineAttempt emptyPolicy emptyPolicy sampleRow none false none
          none).ctx.response_status = SetStateStatus.wait)) ∧
    (∀ e, (engineAttempt emptyPolicy emptyPolicy sampleRow none false none
        none).ctx.orchestration_error = some e →
      (set_flow_run_state emptyPolicy emptyPolicy [sampleRow] 1 none false
          none none).result = Except.error (EngineErr.aborted e) ∧
      (set_flow_run_state emptyPolicy emptyPolicy [sampleRow] 1 none false
          none none).events =
        scopeTrace
          (engineLabeledRules emptyPolicy emptyPolicy false none
            (intendedTransition sampleRow none))
          (engineLabeledRules emptyPolicy emptyPolicy false none
            (intendedTransition sampleRow none)).length
        ++ [EngineEv.raiseOrchestrationError])) :=
  structured_result_or_abort emptyPolicy emptyPolicy [sampleRow] 1 none
    false none none sampleRow _ rfl rfl rfl

end Prefect
